import Mathlib

/-!
Shallow embedding of the room-pairing and chunked-transfer relay core of
`src/server.js` (a socket.io file-transfer server), together with proofs of
the specified properties.

Modelling conventions:
* JS objects used as string-keyed maps (`rooms`, `activeTransfers`, the
  upload store) become association lists `List (String × α)` kept in
  iteration order; `obj[k] = v` on a missing key appends, on a present key
  updates in place, and `delete obj[k]` removes the key.
* A socket id, room code and file id are `String`.
* `socket.emit` / `io.to(id).emit` become elements of an `Event` trace,
  carrying the target connection id.  Broadcast-group membership
  (`socket.join` / `socket.leave`) is not consulted by the protocol (all
  emits address a concrete connection id) and is not modelled.
* File bytes are `List Nat`; the base64 text encoding of a chunk is kept as
  the raw byte list (its byte length is what the properties count).
* The read stream delivers the file as a list of byte chunks; handlers are
  pure functions from state and chunk to state and emitted events.  A
  JavaScript `TypeError` raised inside a handler (reading a field of
  `undefined`) is modelled as `Option.none`: the handler aborts before any
  emission.
* `setTimeout(..., 60000)` scheduling a file deletion is recorded as a
  `ScheduledDeletion` value rather than as time.
-/

/-- Association-list lookup, the embedding of `obj[k]` on a string-keyed
JS object (iteration order = list order). -/
def alookup {α : Type} : List (String × α) → String → Option α
  | [], _ => none
  | (k, v) :: rest, key => if k = key then some v else alookup rest key

/-- Association-list update, the embedding of `obj[k] = v`: updates the
first binding in place, or appends a new binding at the end (JS string-key
insertion order). -/
def aset {α : Type} : List (String × α) → String → α → List (String × α)
  | [], key, v => [(key, v)]
  | (k, w) :: rest, key, v =>
      if k = key then (key, v) :: rest else (k, w) :: aset rest key v

/-- Association-list removal, the embedding of `delete obj[k]`. -/
def aremove {α : Type} (l : List (String × α)) (key : String) :
    List (String × α) :=
  l.filter (fun p => p.1 ≠ key)

/-- One room of the `rooms` table: `{ sender: null, receiver: null,
fileId: null }` at creation (`server.js` lines 76–82).  The `fileId` slot is
initialised to `null` and never written elsewhere in the source. -/
structure Room where
  sender : Option String
  receiver : Option String
  fileId : Option String
deriving DecidableEq, Repr

/-- One record of `activeTransfers` (`server.js` lines 119–125). -/
structure Transfer where
  fileId : String
  receiverId : String
  filePath : String
  sentBytes : Nat
  totalBytes : Nat
deriving DecidableEq, Repr

/-- The metadata object sent with `transfer-started`
(`server.js` lines 112–117). -/
structure FileInfo where
  id : String
  name : String
  size : Nat
  type : String
deriving DecidableEq, Repr

/-- Every socket.io emission of the relay core, tagged with the connection
id it addresses. -/
inductive Event where
  | roomJoined (target : String) (role : String) (roomId : String)
  | roomFull (target : String)
  | userJoined (target : String) (peerId : String)
  | transferStarted (target : String) (info : FileInfo)
  | fileChunk (target : String) (fileId : String) (chunk : List Nat)
      (progress : Nat)
  | transferProgress (target : String) (progress : Nat)
  | transferComplete (target : String)
  | transferError (target : String) (message : String)
  | transferCancelled (target : String)
deriving DecidableEq, Repr

/-- A `setTimeout` file deletion recorded by the end-of-stream handler
(`server.js` lines 157–166). -/
structure ScheduledDeletion where
  filePath : String
  delayMs : Nat
deriving DecidableEq, Repr

/-- The server's mutable state: the `rooms` and `activeTransfers` maps, the
upload store (file id to stored bytes, standing for the `uploads`
directory), and the set of live connections (kept by socket.io itself; the
relay core never reads it). -/
structure ServerState where
  rooms : List (String × Room)
  activeTransfers : List (String × Transfer)
  uploads : List (String × List Nat)
  connections : List String
deriving DecidableEq, Repr

/-! ### Display name and MIME type helpers -/

/-- The embedding of JavaScript `String.prototype.split('-')` on a list of
characters: `"".split('-') = [""]`, separators delimit possibly empty
fields. -/
def splitOnDash : List Char → List (List Char)
  | [] => [[]]
  | c :: cs =>
      if c = '-' then [] :: splitOnDash cs
      else
        match splitOnDash cs with
        | [] => [[c]]
        | t :: ts => (c :: t) :: ts

/-- The embedding of JavaScript `Array.prototype.join('-')`. -/
def joinDash : List (List Char) → List Char
  | [] => []
  | [x] => x
  | x :: xs => x ++ '-' :: joinDash xs

/-- `name.split('-').slice(1).join('-')`: drop the first hyphen-delimited
token (`server.js` line 114). -/
def stripToken (s : List Char) : List Char :=
  joinDash ((splitOnDash s).drop 1)

/-- The display name recovered from a stored file identifier:
`path.basename(filePath).split('-').slice(1).join('-')`.  Since
`filePath = path.join(uploadsDir, fileId)` and a stored identifier contains
no path separator, `path.basename(filePath) = fileId`. -/
def displayName (fileId : String) : String :=
  String.mk (stripToken fileId.toList)

/-- Index of the last `.` in a character list, if any. -/
def lastDotIdx (s : List Char) : Option Nat :=
  match s.reverse.findIdx? (· = '.') with
  | none => none
  | some j => some (s.length - 1 - j)

/-- The embedding of `path.extname` on a final path component: the suffix
from the last `.` on, except that a name with no `.`, or whose only `.` is
its first character, has extension `""`. -/
def extname (s : List Char) : List Char :=
  match lastDotIdx s with
  | none => []
  | some 0 => []
  | some i => s.drop i

/-- The static extension-to-MIME table of `getMimeType`
(`server.js` lines 197–214). -/
def mimeTypes : List (String × String) :=
  [(".html", "text/html"), (".js", "text/javascript"), (".css", "text/css"),
   (".json", "application/json"), (".png", "image/png"),
   (".jpg", "image/jpg"), (".gif", "image/gif"), (".svg", "image/svg+xml"),
   (".wav", "audio/wav"), (".mp4", "video/mp4"),
   (".woff", "application/font-woff"), (".ttf", "application/font-ttf"),
   (".eot", "application/vnd.ms-fontobject"), (".otf", "application/font-otf"),
   (".wasm", "application/wasm")]

/-- `getMimeType` (`server.js` lines 196–217): look the lower-cased
extension up in the table, defaulting to `application/octet-stream`.  The
source applies it to the full `filePath`; a stored file identifier is the
final path component, so applying it to the identifier is the same. -/
def getMimeType (fileId : String) : String :=
  let ext := String.mk ((extname fileId.toList).map Char.toLower)
  (alookup mimeTypes ext).getD "application/octet-stream"

/-! ### Progress computation -/

/-- `Math.min(100, Math.round((sentBytes / totalBytes) * 100))`
(`server.js` lines 139 and 146), with the float arithmetic carried out
exactly: JavaScript `Math.round x = ⌊x + 1/2⌋` for non-negative `x`, and
`⌊100 * s / t + 1/2⌋ = (200 * s + t) / (2 * t)` in natural division. -/
def progressOf (sentBytes totalBytes : Nat) : Nat :=
  min 100 ((200 * sentBytes + totalBytes) / (2 * totalBytes))

/-! ### Event handlers, translated from `server.js` -/

/-- The `join-room` handler (`server.js` lines 71–99).  Initialises the
room when the code is unseen, then: no sender yet → caller becomes sender;
no receiver yet → caller becomes receiver and the sender is notified;
otherwise the caller is rejected with `room-full` and the table is left
unchanged. -/
def joinRoom (rooms : List (String × Room)) (socketId roomId : String) :
    List (String × Room) × List Event :=
  match alookup rooms roomId with
  | none =>
      (rooms ++ [(roomId, { sender := some socketId, receiver := none,
                            fileId := none })],
       [Event.roomJoined socketId "sender" roomId])
  | some r =>
      match r.sender with
      | none =>
          (aset rooms roomId { r with sender := some socketId },
           [Event.roomJoined socketId "sender" roomId])
      | some s =>
          match r.receiver with
          | none =>
              (aset rooms roomId { r with receiver := some socketId },
               [Event.roomJoined socketId "receiver" roomId,
                Event.userJoined s socketId])
          | some _ => (rooms, [Event.roomFull socketId])

/-- The synchronous part of the `start-transfer` handler
(`server.js` lines 101–131): existence check, file metadata, creation of
the `activeTransfers` record, `transfer-started` to the receiver.  The
upload store stands for `fs.existsSync` / `fs.statSync`; `filePath` is
`path.join(uploadsDir, fileId)`. -/
def startTransfer (st : ServerState) (socketId fileId receiverId : String) :
    ServerState × List Event :=
  match alookup st.uploads fileId with
  | none => (st, [Event.transferError socketId "File not found on server"])
  | some content =>
      let filePath := "uploads/" ++ fileId
      let info : FileInfo :=
        { id := fileId, name := displayName fileId, size := content.length,
          type := getMimeType fileId }
      let t : Transfer :=
        { fileId := fileId, receiverId := receiverId, filePath := filePath,
          sentBytes := 0, totalBytes := content.length }
      ({ st with activeTransfers := aset st.activeTransfers socketId t },
       [Event.transferStarted receiverId info])

/-- The read stream's `data` handler (`server.js` lines 135–149) for one
chunk.  `receiverId`, `fileId` and `totalBytes` (`stats.size`) are captured
by the closure at `start-transfer` time.  The handler reads
`activeTransfers[socket.id].sentBytes` to build the `file-chunk` payload;
if the record was deleted (sender disconnect) that read throws a
`TypeError` before anything is emitted, modelled as `none`.  Otherwise it
emits `file-chunk` to the receiver with the pre-increment progress,
increments `sentBytes`, and emits `transfer-progress` to the sender with
the post-increment progress. -/
def onData (transfers : List (String × Transfer))
    (socketId receiverId fileId : String) (totalBytes : Nat)
    (chunk : List Nat) :
    Option (List (String × Transfer) × List Event) :=
  match alookup transfers socketId with
  | none => none
  | some t =>
      let e1 := Event.fileChunk receiverId fileId chunk
        (progressOf t.sentBytes totalBytes)
      let transfers := aset transfers socketId
        { t with sentBytes := t.sentBytes + chunk.length }
      let e2 := Event.transferProgress socketId
        (progressOf (t.sentBytes + chunk.length) totalBytes)
      some (transfers, [e1, e2])

/-- Run the `data` handler over a list of stream chunks in order.  A thrown
`TypeError` (`onData = none`) aborts the loop: the exception propagates out
of the listener uncaught, so no later chunk is handled and nothing is
emitted for it. -/
def runChunks (transfers : List (String × Transfer))
    (socketId receiverId fileId : String) (totalBytes : Nat) :
    List (List Nat) → List (String × Transfer) × List Event
  | [] => (transfers, [])
  | c :: cs =>
      match onData transfers socketId receiverId fileId totalBytes c with
      | none => (transfers, [])
      | some (ts, es) =>
          let r := runChunks ts socketId receiverId fileId totalBytes cs
          (r.1, es ++ r.2)

/-- The read stream's `end` handler (`server.js` lines 151–166):
`transfer-complete` to the sender, then to the receiver, and a deletion of
the stored file scheduled 60 000 ms later. -/
def onEnd (socketId receiverId filePath : String) :
    List Event × List ScheduledDeletion :=
  ([Event.transferComplete socketId, Event.transferComplete receiverId],
   [{ filePath := filePath, delayMs := 60000 }])

/-- The read stream's `error` handler (`server.js` lines 168–173):
`transfer-error` to the sender and to the receiver, the session record
deleted, and no deletion scheduled. -/
def onError (transfers : List (String × Transfer))
    (socketId receiverId : String) :
    List (String × Transfer) × List Event × List ScheduledDeletion :=
  (aremove transfers socketId,
   [Event.transferError socketId "Error reading file",
    Event.transferError receiverId "Error transferring file"],
   [])

/-- The room-cleanup loop of the `disconnect` handler
(`server.js` lines 187–193): scan the table in iteration order, delete the
first room whose sender or receiver is the disconnected id, and `break`. -/
def cleanupRooms : List (String × Room) → String → List (String × Room)
  | [], _ => []
  | (rid, r) :: rest, sid =>
      if r.sender = some sid ∨ r.receiver = some sid then rest
      else (rid, r) :: cleanupRooms rest sid

/-- The `disconnect` handler (`server.js` lines 177–194): if the socket has
an active transfer, emit `transfer-cancelled` to its receiver and delete
the record; then run the room-cleanup loop. -/
def onDisconnect (st : ServerState) (socketId : String) :
    ServerState × List Event :=
  let (transfers, evts) :=
    match alookup st.activeTransfers socketId with
    | some t =>
        (aremove st.activeTransfers socketId,
         [Event.transferCancelled t.receiverId])
    | none => (st.activeTransfers, [])
  ({ st with activeTransfers := transfers,
             rooms := cleanupRooms st.rooms socketId }, evts)

/-! ### Trace observations -/

/-- The byte chunks carried by the `file-chunk` events of a trace. -/
def emittedChunks : List Event → List (List Nat)
  | [] => []
  | Event.fileChunk _ _ c _ :: rest => c :: emittedChunks rest
  | _ :: rest => emittedChunks rest

/-- The progress values carried by a trace, in emission order (`file-chunk`
and `transfer-progress` both carry one). -/
def progressValues : List Event → List Nat
  | [] => []
  | Event.fileChunk _ _ _ p :: rest => p :: progressValues rest
  | Event.transferProgress _ p :: rest => p :: progressValues rest
  | _ :: rest => progressValues rest

/-- The progress values `runChunks` emits, starting from `sentBytes = s`:
for each chunk, first the pre-increment value, then the post-increment
value. -/
def progressTrace (totalBytes s : Nat) : List (List Nat) → List Nat
  | [] => []
  | c :: cs =>
      progressOf s totalBytes :: progressOf (s + c.length) totalBytes ::
        progressTrace totalBytes (s + c.length) cs

/-! ### Association-list lemmas -/

theorem alookup_aset_self {α : Type} (l : List (String × α)) (k : String)
    (v : α) : alookup (aset l k v) k = some v := by
  induction l with
  | nil => simp [aset, alookup]
  | cons p rest ih =>
      obtain ⟨q, w⟩ := p
      by_cases hk : q = k
      · simp [aset, hk, alookup]
      · simp [aset, hk, alookup, ih]

theorem alookup_append_single {α : Type} (l : List (String × α)) (k : String)
    (v : α) (h : alookup l k = none) : alookup (l ++ [(k, v)]) k = some v := by
  induction l with
  | nil => simp [alookup]
  | cons p rest ih =>
      obtain ⟨q, w⟩ := p
      by_cases hk : q = k
      · simp [alookup, hk] at h
      · simp only [alookup, List.cons_append, if_neg hk] at h ⊢
        exact ih h

theorem alookup_aremove_self {α : Type} (l : List (String × α)) (k : String) :
    alookup (aremove l k) k = none := by
  induction l with
  | nil => rfl
  | cons p rest ih =>
      obtain ⟨q, w⟩ := p
      by_cases hk : q = k
      · simpa [aremove, List.filter_cons, hk] using ih
      · simpa [aremove, List.filter_cons, hk, alookup] using ih

/-! ### Streaming-loop lemmas -/

/-- With no `activeTransfers` record for the sender, the first `data` event
throws before emitting and the loop produces no events at all. -/
theorem runChunks_absent (transfers : List (String × Transfer))
    (sid rid fid : String) (tot : Nat) (cs : List (List Nat))
    (h : alookup transfers sid = none) :
    (runChunks transfers sid rid fid tot cs).2 = [] := by
  cases cs with
  | nil => rfl
  | cons c cs => simp [runChunks, onData, h]

theorem progressValues_append (a b : List Event) :
    progressValues (a ++ b) = progressValues a ++ progressValues b := by
  induction a with
  | nil => rfl
  | cons e rest ih => cases e <;> simp [progressValues, ih]

theorem emittedChunks_append (a b : List Event) :
    emittedChunks (a ++ b) = emittedChunks a ++ emittedChunks b := by
  induction a with
  | nil => rfl
  | cons e rest ih => cases e <;> simp [emittedChunks, ih]

/-- The progress values the loop emits form exactly the pre/post
interleaving `progressTrace`, starting from the record's `sentBytes`. -/
theorem progressValues_runChunks (sid rid fid : String) (tot : Nat) :
    ∀ (cs : List (List Nat)) (transfers : List (String × Transfer))
      (t : Transfer), alookup transfers sid = some t →
      progressValues (runChunks transfers sid rid fid tot cs).2 =
        progressTrace tot t.sentBytes cs := by
  intro cs
  induction cs with
  | nil => intro transfers t _; rfl
  | cons c cs ih =>
      intro transfers t h
      have h2 := alookup_aset_self transfers sid
        { t with sentBytes := t.sentBytes + c.length }
      simp [runChunks, onData, h, progressValues_append, progressValues,
        progressTrace, ih _ _ h2]

/-- The loop emits one `file-chunk` per stream chunk, carrying exactly the
chunk's bytes, as long as the session record is present. -/
theorem emittedChunks_runChunks (sid rid fid : String) (tot : Nat) :
    ∀ (cs : List (List Nat)) (transfers : List (String × Transfer))
      (t : Transfer), alookup transfers sid = some t →
      emittedChunks (runChunks transfers sid rid fid tot cs).2 = cs := by
  intro cs
  induction cs with
  | nil => intro transfers t _; rfl
  | cons c cs ih =>
      intro transfers t h
      have h2 := alookup_aset_self transfers sid
        { t with sentBytes := t.sentBytes + c.length }
      simp [runChunks, onData, h, emittedChunks_append, emittedChunks,
        ih _ _ h2]

/-! ### Progress arithmetic -/

theorem progressOf_le_100 (s t : Nat) : progressOf s t ≤ 100 := by
  unfold progressOf
  exact min_le_left _ _

theorem progressOf_mono (t : Nat) {s1 s2 : Nat} (h : s1 ≤ s2) :
    progressOf s1 t ≤ progressOf s2 t := by
  unfold progressOf
  exact min_le_min (le_refl 100) (Nat.div_le_div_right (by omega))

theorem progressOf_total {t : Nat} (h : 0 < t) : progressOf t t = 100 := by
  unfold progressOf
  have h100 : (200 * t + t) / (2 * t) = 100 :=
    Nat.div_eq_of_lt_le (by omega) (by omega)
  rw [h100]
  simp

/-- `progressOf` is the spec's formula `min(100, round(s / t * 100))` with
`round` = half-up, carried out in exact arithmetic. -/
theorem progressOf_eq_round (s t : Nat) (ht : 0 < t) :
    progressOf s t = min 100 (Nat.floor ((s : ℚ) / t * 100 + 1/2)) := by
  have h0 : (t : ℚ) ≠ 0 := by positivity
  have h1 : ((s : ℚ) / t * 100 + 1/2) =
      ((200 * s + t : ℕ) : ℚ) / ((2 * t : ℕ) : ℚ) := by
    push_cast
    field_simp
    ring
  unfold progressOf
  rw [h1, Nat.floor_div_eq_div]

theorem progressTrace_chain (tot : Nat) :
    ∀ (cs : List (List Nat)) (s : Nat),
      List.Chain' (· ≤ ·) (progressOf s tot :: progressTrace tot s cs) := by
  intro cs
  induction cs with
  | nil => intro s; simp [progressTrace]
  | cons c cs ih =>
      intro s
      simp only [progressTrace]
      exact List.chain'_cons.2 ⟨le_refl _, List.chain'_cons.2
        ⟨progressOf_mono tot (Nat.le_add_right _ _), ih (s + c.length)⟩⟩

theorem progressTrace_le_100 (tot : Nat) :
    ∀ (cs : List (List Nat)) (s : Nat),
      ∀ p ∈ progressTrace tot s cs, p ≤ 100 := by
  intro cs
  induction cs with
  | nil => intro s p hp; simp [progressTrace] at hp
  | cons c cs ih =>
      intro s p hp
      simp only [progressTrace, List.mem_cons] at hp
      rcases hp with h | h | h
      · exact h ▸ progressOf_le_100 _ _
      · exact h ▸ progressOf_le_100 _ _
      · exact ih _ p h

theorem progressTrace_getLast (tot : Nat) :
    ∀ (cs : List (List Nat)) (s : Nat), cs ≠ [] →
      (progressTrace tot s cs).getLast? =
        some (progressOf (s + (cs.map List.length).sum) tot) := by
  intro cs
  induction cs with
  | nil => intro s h; exact absurd rfl h
  | cons c cs ih =>
      intro s _
      cases cs with
      | nil => simp [progressTrace]
      | cons d ds =>
          have step := ih (s + c.length) (by simp)
          rw [show progressTrace tot s (c :: d :: ds) =
            progressOf s tot :: progressOf (s + c.length) tot ::
              progressTrace tot (s + c.length) (d :: ds) from rfl]
          rw [List.getLast?_cons_cons]
          rw [show progressTrace tot (s + c.length) (d :: ds) =
            progressOf (s + c.length) tot ::
              progressOf (s + c.length + d.length) tot ::
                progressTrace tot (s + c.length + d.length) ds from rfl]
          rw [List.getLast?_cons_cons]
          rw [show progressOf (s + c.length) tot ::
            progressOf (s + c.length + d.length) tot ::
              progressTrace tot (s + c.length + d.length) ds =
            progressTrace tot (s + c.length) (d :: ds) from rfl]
          rw [step]
          congr 2
          simp only [List.map_cons, List.sum_cons]
          omega

/-! ### Display-name lemmas -/

theorem splitOnDash_ne_nil : ∀ s : List Char, splitOnDash s ≠ [] := by
  intro s
  cases s with
  | nil => simp [splitOnDash]
  | cons c cs =>
      simp only [splitOnDash]
      by_cases hc : c = '-'
      · simp [hc]
      · simp only [if_neg hc]
        cases h : splitOnDash cs <;> simp

theorem joinDash_cons_cons (c : Char) (t : List Char)
    (ts : List (List Char)) :
    joinDash ((c :: t) :: ts) = c :: joinDash (t :: ts) := by
  cases ts <;> simp [joinDash]

theorem joinDash_splitOnDash : ∀ s : List Char,
    joinDash (splitOnDash s) = s := by
  intro s
  induction s with
  | nil => rfl
  | cons c cs ih =>
      by_cases hc : c = '-'
      · subst hc
        simp only [splitOnDash, if_pos rfl]
        cases h : splitOnDash cs with
        | nil => exact absurd h (splitOnDash_ne_nil cs)
        | cons t ts =>
            rw [h] at ih
            simp [joinDash, ih]
      · simp only [splitOnDash, if_neg hc]
        cases h : splitOnDash cs with
        | nil => exact absurd h (splitOnDash_ne_nil cs)
        | cons t ts =>
            rw [h] at ih
            show joinDash ((c :: t) :: ts) = c :: cs
            rw [joinDash_cons_cons, ih]

theorem splitOnDash_append (a b : List Char) (h : '-' ∉ a) :
    splitOnDash (a ++ '-' :: b) = a :: splitOnDash b := by
  induction a with
  | nil => simp [splitOnDash]
  | cons c a ih =>
      have hc : ¬c = '-' := fun e => h (by simp [e])
      have ha : '-' ∉ a := fun m => h (List.mem_cons_of_mem _ m)
      have key := ih ha
      simp only [List.cons_append, splitOnDash, if_neg hc]
      rw [show splitOnDash (a.append ('-' :: b)) = a :: splitOnDash b from key]

theorem stripToken_strip (a b : List Char) (h : '-' ∉ a) :
    stripToken (a ++ '-' :: b) = b := by
  unfold stripToken
  rw [splitOnDash_append a b h]
  exact joinDash_splitOnDash b

/-! ### Claims -/

/-- C1: for every sequence of join-room requests on a previously-unseen
room code, the first joiner is assigned role sender, the second joiner is
assigned role receiver (and the sender is notified with user-joined), and a
third joiner is rejected with room-full while the room's sender and
receiver slots — indeed the whole room table — are unchanged by the
rejected join. -/
theorem C1_room_role_assignment (rooms0 : List (String × Room))
    (rid a b c : String) (h : alookup rooms0 rid = none) :
    (joinRoom rooms0 a rid).2 = [Event.roomJoined a "sender" rid] ∧
    (joinRoom (joinRoom rooms0 a rid).1 b rid).2 =
      [Event.roomJoined b "receiver" rid, Event.userJoined a b] ∧
    (joinRoom (joinRoom (joinRoom rooms0 a rid).1 b rid).1 c rid).2 =
      [Event.roomFull c] ∧
    (joinRoom (joinRoom (joinRoom rooms0 a rid).1 b rid).1 c rid).1 =
      (joinRoom (joinRoom rooms0 a rid).1 b rid).1 ∧
    alookup (joinRoom (joinRoom rooms0 a rid).1 b rid).1 rid =
      some { sender := some a, receiver := some b, fileId := none } := by
  have e1 : (joinRoom rooms0 a rid).2 = [Event.roomJoined a "sender" rid] := by
    simp [joinRoom, h]
  have s1 : (joinRoom rooms0 a rid).1 =
      rooms0 ++
        [(rid, { sender := some a, receiver := none, fileId := none })] := by
    simp [joinRoom, h]
  have h2 : alookup (rooms0 ++
      [(rid, { sender := some a, receiver := none, fileId := none })]) rid =
      some { sender := some a, receiver := none, fileId := none } :=
    alookup_append_single rooms0 rid _ h
  have e2 : (joinRoom (rooms0 ++
      [(rid, { sender := some a, receiver := none, fileId := none })])
        b rid).2 =
      [Event.roomJoined b "receiver" rid, Event.userJoined a b] := by
    simp [joinRoom, h2]
  have s2 : (joinRoom (rooms0 ++
      [(rid, { sender := some a, receiver := none, fileId := none })])
        b rid).1 =
      aset (rooms0 ++
        [(rid, { sender := some a, receiver := none, fileId := none })]) rid
        { sender := some a, receiver := some b, fileId := none } := by
    simp [joinRoom, h2]
  have h4 : alookup (aset (rooms0 ++
      [(rid, { sender := some a, receiver := none, fileId := none })]) rid
        { sender := some a, receiver := some b, fileId := none }) rid =
      some { sender := some a, receiver := some b, fileId := none } :=
    alookup_aset_self _ _ _
  have e3 : (joinRoom (aset (rooms0 ++
      [(rid, { sender := some a, receiver := none, fileId := none })]) rid
        { sender := some a, receiver := some b, fileId := none }) c rid).2 =
      [Event.roomFull c] := by
    simp [joinRoom, h4]
  have s3 : (joinRoom (aset (rooms0 ++
      [(rid, { sender := some a, receiver := none, fileId := none })]) rid
        { sender := some a, receiver := some b, fileId := none }) c rid).1 =
      aset (rooms0 ++
        [(rid, { sender := some a, receiver := none, fileId := none })]) rid
        { sender := some a, receiver := some b, fileId := none } := by
    simp [joinRoom, h4]
  refine ⟨e1, ?_, ?_, ?_, ?_⟩
  · rw [s1]
    exact e2
  · rw [s1, s2]
    exact e3
  · rw [s1, s2]
    exact s3
  · rw [s1, s2]
    exact h4

theorem C1_room_role_assignment_witness :
    (joinRoom [] "A" "R").2 = [Event.roomJoined "A" "sender" "R"] ∧
    (joinRoom (joinRoom [] "A" "R").1 "B" "R").2 =
      [Event.roomJoined "B" "receiver" "R", Event.userJoined "A" "B"] ∧
    (joinRoom (joinRoom (joinRoom [] "A" "R").1 "B" "R").1 "C" "R").2 =
      [Event.roomFull "C"] ∧
    (joinRoom (joinRoom (joinRoom [] "A" "R").1 "B" "R").1 "C" "R").1 =
      (joinRoom (joinRoom [] "A" "R").1 "B" "R").1 ∧
    alookup (joinRoom (joinRoom [] "A" "R").1 "B" "R").1 "R" =
      some { sender := some "A", receiver := some "B", fileId := none } :=
  C1_room_role_assignment [] "R" "A" "B" "C" rfl

/-- C2, counterexample: a 5-byte file sent in one 5-byte chunk.  The `data`
handler emits `file-chunk` with progress 0 — computed from `bytesSent`
BEFORE the increment — while the claimed already-incremented value would
give `progressOf (0 + 5) 5 = 100`, and the subsequent `transfer-progress`
carries 100, not the same value as the `file-chunk`. -/
theorem C2_counterexample :
    onData [("s", { fileId := "f", receiverId := "r",
                    filePath := "uploads/f", sentBytes := 0,
                    totalBytes := 5 })]
      "s" "r" "f" 5 [9, 9, 9, 9, 9] =
      some ([("s", { fileId := "f", receiverId := "r",
                     filePath := "uploads/f", sentBytes := 5,
                     totalBytes := 5 })],
        [Event.fileChunk "r" "f" [9, 9, 9, 9, 9] 0,
         Event.transferProgress "s" 100]) ∧
    progressOf (0 + 5) 5 = 100 ∧ (0 : Nat) ≠ 100 := by
  decide

/-- C2, amended: for every chunk handled during an active transfer, the
file-chunk event is emitted to the receiver with progress computed from the
PRE-increment `bytesSent`; `bytesSent` is incremented by the chunk's byte
length only afterwards; and the transfer-progress event then emitted to the
sender carries progress computed from the POST-increment `bytesSent`, which
can differ from the file-chunk's value. -/
theorem C2_chunk_event_order (transfers : List (String × Transfer))
    (sid rid fid : String) (tot : Nat) (chunk : List Nat) (t : Transfer)
    (h : alookup transfers sid = some t) :
    onData transfers sid rid fid tot chunk =
      some (aset transfers sid
          { t with sentBytes := t.sentBytes + chunk.length },
        [Event.fileChunk rid fid chunk (progressOf t.sentBytes tot),
         Event.transferProgress sid
           (progressOf (t.sentBytes + chunk.length) tot)]) := by
  simp [onData, h]

theorem C2_chunk_event_order_witness :
    onData [("s", { fileId := "f", receiverId := "r",
                    filePath := "uploads/f", sentBytes := 0,
                    totalBytes := 10 })]
      "s" "r" "f" 10 [1, 2] =
      some ([("s", { fileId := "f", receiverId := "r",
                     filePath := "uploads/f", sentBytes := 2,
                     totalBytes := 10 })],
        [Event.fileChunk "r" "f" [1, 2] 0,
         Event.transferProgress "s" 20]) := by
  have h := C2_chunk_event_order
    [("s", { fileId := "f", receiverId := "r", filePath := "uploads/f",
             sentBytes := 0, totalBytes := 10 })] "s" "r" "f" 10 [1, 2]
    { fileId := "f", receiverId := "r", filePath := "uploads/f",
      sentBytes := 0, totalBytes := 10 } rfl
  exact h

/-- C5: a start-transfer whose fileId names no stored file gets
transfer-error "File not found on server", the state (hence the session
registry) is unchanged, and no transfer-started is emitted to anyone. -/
theorem C5_missing_file (st : ServerState) (sid fid rid : String)
    (h : alookup st.uploads fid = none) :
    startTransfer st sid fid rid =
      (st, [Event.transferError sid "File not found on server"]) ∧
    ∀ (tgt : String) (info : FileInfo),
      Event.transferStarted tgt info ∉ (startTransfer st sid fid rid).2 := by
  have h1 : startTransfer st sid fid rid =
      (st, [Event.transferError sid "File not found on server"]) := by
    simp [startTransfer, h]
  refine ⟨h1, ?_⟩
  intro tgt info
  rw [h1]
  simp

theorem C5_missing_file_witness :
    startTransfer (ServerState.mk [] [] [] []) "s" "g" "r" =
      (ServerState.mk [] [] [] [],
       [Event.transferError "s" "File not found on server"]) ∧
    Event.transferStarted "r"
        { id := "g", name := "g", size := 0, type := "x" } ∉
      (startTransfer (ServerState.mk [] [] [] []) "s" "g" "r").2 :=
  ⟨(C5_missing_file (ServerState.mk [] [] [] []) "s" "g" "r" rfl).1,
   (C5_missing_file (ServerState.mk [] [] [] []) "s" "g" "r" rfl).2 "r"
     { id := "g", name := "g", size := 0, type := "x" }⟩

/-- C7: on a read error during an active transfer, the sender gets
transfer-error "Error reading file", the receiver gets transfer-error
"Error transferring file", the session record is discarded immediately, and
no file deletion is scheduled. -/
theorem C7_read_error (transfers : List (String × Transfer))
    (sid rid : String) :
    onError transfers sid rid =
      (aremove transfers sid,
       [Event.transferError sid "Error reading file",
        Event.transferError rid "Error transferring file"], []) ∧
    alookup (onError transfers sid rid).1 sid = none :=
  ⟨rfl, alookup_aremove_self _ _⟩

/-- C8: the display name in the transfer-started metadata strips exactly
the first hyphen-delimited token of the stored identifier: concretely,
"1699999999999-42-photo.png" yields "42-photo.png", and in general
stripping a hyphen-free prefix plus its hyphen leaves the rest intact. -/
theorem C8_display_name :
    displayName "1699999999999-42-photo.png" = "42-photo.png" ∧
    ∀ (a b : List Char), '-' ∉ a → stripToken (a ++ '-' :: b) = b := by
  exact ⟨by decide, stripToken_strip⟩

theorem C8_display_name_witness :
    stripToken (['4', '2'] ++ '-' :: ['p', 'n', 'g']) = ['p', 'n', 'g'] :=
  C8_display_name.2 ['4', '2'] ['p', 'n', 'g'] (by decide)

/-- C3, counterexample: a transfer of an EMPTY file runs to end-of-file
with no data events at all; the chunk-length sum does equal `totalBytes`
(both 0) but no progress value is ever emitted, so the final progress value
emitted does not equal 100 — there is none. -/
theorem C3_counterexample :
    (List.map List.length (emittedChunks
        (runChunks [("s", { fileId := "f", receiverId := "r",
                            filePath := "uploads/f", sentBytes := 0,
                            totalBytes := 0 })] "s" "r" "f" 0 []).2)).sum =
      0 ∧
    (progressValues (runChunks [("s", { fileId := "f", receiverId := "r",
                                        filePath := "uploads/f",
                                        sentBytes := 0,
                                        totalBytes := 0 })]
        "s" "r" "f" 0 []).2).getLast? ≠ some 100 := by
  decide

/-- C3, amended: for every transfer that runs to end-of-file, the sum of
the byte lengths of all chunks emitted as file-chunk events equals the
session's totalBytes; and provided the file is nonempty, the final progress
value emitted equals exactly 100 (an empty file emits no chunk and no
progress value at all). -/
theorem C3_total_and_final_progress (transfers : List (String × Transfer))
    (sid rid fid : String) (content : List Nat) (chunks : List (List Nat))
    (t : Transfer) (hsess : alookup transfers sid = some t)
    (hs0 : t.sentBytes = 0) (hpart : chunks.flatten = content)
    (hne : content ≠ []) :
    (List.map List.length (emittedChunks
        (runChunks transfers sid rid fid content.length chunks).2)).sum =
      content.length ∧
    (progressValues (runChunks transfers sid rid fid content.length
        chunks).2).getLast? = some 100 := by
  have hchunks : emittedChunks
      (runChunks transfers sid rid fid content.length chunks).2 = chunks :=
    emittedChunks_runChunks sid rid fid content.length chunks transfers t
      hsess
  have hsum : (List.map List.length chunks).sum = content.length := by
    rw [← hpart]
    exact (List.length_flatten chunks).symm
  constructor
  · rw [hchunks, hsum]
  · have hpv := progressValues_runChunks sid rid fid content.length chunks
      transfers t hsess
    have hcne : chunks ≠ [] := by
      intro e
      apply hne
      rw [← hpart, e]
      rfl
    rw [hpv, hs0,
      progressTrace_getLast content.length chunks 0 hcne, hsum]
    have h100 : progressOf (0 + content.length) content.length = 100 := by
      rw [Nat.zero_add]
      exact progressOf_total (List.length_pos.2 hne)
    rw [h100]

theorem C3_total_and_final_progress_witness :
    (List.map List.length (emittedChunks
        (runChunks [("s", { fileId := "f", receiverId := "r",
                            filePath := "uploads/f", sentBytes := 0,
                            totalBytes := 3 })] "s" "r" "f"
          [7, 8, 9].length [[7, 8], [9]]).2)).sum = [7, 8, 9].length ∧
    (progressValues (runChunks [("s", { fileId := "f", receiverId := "r",
                                        filePath := "uploads/f",
                                        sentBytes := 0,
                                        totalBytes := 3 })] "s" "r" "f"
        [7, 8, 9].length [[7, 8], [9]]).2).getLast? = some 100 :=
  C3_total_and_final_progress
    [("s", { fileId := "f", receiverId := "r", filePath := "uploads/f",
             sentBytes := 0, totalBytes := 3 })]
    "s" "r" "f" [7, 8, 9] [[7, 8], [9]]
    { fileId := "f", receiverId := "r", filePath := "uploads/f",
      sentBytes := 0, totalBytes := 3 }
    rfl rfl (by decide) (by decide)

/-- C4: if the sender disconnects while its transfer session is active, the
receiver is sent transfer-cancelled, and on the post-disconnect state the
streaming loop emits nothing at all for that session — its first data event
finds no session record and aborts before any emission — so no further
file-chunk event is emitted. -/
theorem C4_cancel_on_disconnect (st : ServerState) (sid : String)
    (t : Transfer) (hsess : alookup st.activeTransfers sid = some t) :
    (onDisconnect st sid).2 = [Event.transferCancelled t.receiverId] ∧
    ∀ (rid fid : String) (tot : Nat) (chunks : List (List Nat)),
      (runChunks (onDisconnect st sid).1.activeTransfers sid rid fid tot
        chunks).2 = [] := by
  have hd : onDisconnect st sid =
      ({ st with activeTransfers := aremove st.activeTransfers sid,
                 rooms := cleanupRooms st.rooms sid },
       [Event.transferCancelled t.receiverId]) := by
    simp [onDisconnect, hsess]
  constructor
  · rw [hd]
  · intro rid fid tot chunks
    rw [hd]
    exact runChunks_absent _ _ _ _ _ _ (alookup_aremove_self _ _)

theorem C4_cancel_on_disconnect_witness :
    (onDisconnect (ServerState.mk []
        [("s", { fileId := "f", receiverId := "r", filePath := "uploads/f",
                 sentBytes := 2, totalBytes := 5 })] [] []) "s").2 =
      [Event.transferCancelled "r"] ∧
    (runChunks (onDisconnect (ServerState.mk []
        [("s", { fileId := "f", receiverId := "r", filePath := "uploads/f",
                 sentBytes := 2, totalBytes := 5 })] [] [])
        "s").1.activeTransfers "s" "r" "f" 5 [[9, 9]]).2 = [] :=
  ⟨(C4_cancel_on_disconnect (ServerState.mk []
      [("s", { fileId := "f", receiverId := "r", filePath := "uploads/f",
               sentBytes := 2, totalBytes := 5 })] [] []) "s"
      { fileId := "f", receiverId := "r", filePath := "uploads/f",
        sentBytes := 2, totalBytes := 5 } rfl).1,
   (C4_cancel_on_disconnect (ServerState.mk []
      [("s", { fileId := "f", receiverId := "r", filePath := "uploads/f",
               sentBytes := 2, totalBytes := 5 })] [] []) "s"
      { fileId := "f", receiverId := "r", filePath := "uploads/f",
        sentBytes := 2, totalBytes := 5 } rfl).2 "r" "f" 5 [[9, 9]]⟩

/-- C6: within one transfer the sequence of progress values emitted (by
file-chunk and transfer-progress events, in order) is non-decreasing and
bounded by 100 (values are naturals, so ≥ 0 holds trivially), and the
progress function is exactly `min(100, round(bytesSent / totalBytes * 100))`
with round half-up — `floor` of which is itself, the value being an
integer. -/
theorem C6_progress_monotone_bounded
    (transfers : List (String × Transfer)) (sid rid fid : String)
    (tot : Nat) (chunks : List (List Nat)) :
    List.Chain' (· ≤ ·)
      (progressValues (runChunks transfers sid rid fid tot chunks).2) ∧
    (∀ p ∈ progressValues (runChunks transfers sid rid fid tot chunks).2,
      p ≤ 100) ∧
    (0 < tot → ∀ s : Nat,
      progressOf s tot =
        min 100 (Nat.floor ((s : ℚ) / tot * 100 + 1/2))) := by
  refine ⟨?_, ?_, fun ht s => progressOf_eq_round s tot ht⟩
  · cases hs : alookup transfers sid with
    | none =>
        rw [runChunks_absent transfers sid rid fid tot chunks hs]
        exact List.chain'_nil
    | some t =>
        rw [progressValues_runChunks sid rid fid tot chunks transfers t hs]
        exact (progressTrace_chain tot chunks t.sentBytes).tail
  · cases hs : alookup transfers sid with
    | none =>
        rw [runChunks_absent transfers sid rid fid tot chunks hs]
        simp [progressValues]
    | some t =>
        rw [progressValues_runChunks sid rid fid tot chunks transfers t hs]
        exact progressTrace_le_100 tot chunks t.sentBytes

theorem C6_progress_monotone_bounded_witness :
    progressOf 3 5 =
      min 100 (Nat.floor (((3 : Nat) : ℚ) / ((5 : Nat) : ℚ) * 100 + 1/2)) :=
  (C6_progress_monotone_bounded [] "s" "r" "f" 5 []).2.2 (by decide) 3

/-- C9: the synchronous part of start-transfer emits transfer-error to the
caller exactly when no stored file matches the fileId; when the file
exists, transfer-started is emitted to the supplied receiverId and the
session record targeting that receiverId is created unconditionally — the
outcome is independent of the room table and of the connection registry, so
no pairing, role, or liveness check is made. -/
theorem C9_no_pairing_check (st : ServerState) (sid fid rid : String) :
    ((∃ m, Event.transferError sid m ∈ (startTransfer st sid fid rid).2) ↔
      alookup st.uploads fid = none) ∧
    (∀ content : List Nat, alookup st.uploads fid = some content →
      (startTransfer st sid fid rid).2 =
        [Event.transferStarted rid
          { id := fid, name := displayName fid, size := content.length,
            type := getMimeType fid }] ∧
      alookup (startTransfer st sid fid rid).1.activeTransfers sid =
        some { fileId := fid, receiverId := rid,
               filePath := "uploads/" ++ fid, sentBytes := 0,
               totalBytes := content.length }) ∧
    (∀ (rooms2 : List (String × Room)) (conns2 : List String),
      (startTransfer { st with rooms := rooms2, connections := conns2 }
        sid fid rid).2 = (startTransfer st sid fid rid).2) := by
  cases hu : alookup st.uploads fid with
  | none =>
      refine ⟨?_, ?_, ?_⟩
      · simp [startTransfer, hu]
      · intro content hc
        exact absurd hc (by simp)
      · intro rooms2 conns2
        simp [startTransfer, hu]
  | some content =>
      refine ⟨?_, ?_, ?_⟩
      · simp [startTransfer, hu]
      · intro content2 hc
        obtain rfl : content = content2 := by injection hc
        constructor
        · simp [startTransfer, hu]
        · simp [startTransfer, hu, alookup_aset_self]
      · intro rooms2 conns2
        simp [startTransfer, hu]

theorem C9_no_pairing_check_witness :
    (startTransfer (ServerState.mk [] [] [("f", [1, 2, 3])] [])
        "s" "f" "r").2 =
      [Event.transferStarted "r"
        { id := "f", name := displayName "f", size := [1, 2, 3].length,
          type := getMimeType "f" }] ∧
    alookup (startTransfer (ServerState.mk [] [] [("f", [1, 2, 3])] [])
        "s" "f" "r").1.activeTransfers "s" =
      some { fileId := "f", receiverId := "r",
             filePath := "uploads/" ++ "f", sentBytes := 0,
             totalBytes := [1, 2, 3].length } :=
  (C9_no_pairing_check (ServerState.mk [] [] [("f", [1, 2, 3])] [])
    "s" "f" "r").2.1 [1, 2, 3] rfl

/-- C10: disconnect handling removes at most one room: the room table
after a disconnect is the cleanup loop's result; the loop deletes exactly
the first room in iteration order whose sender or receiver slot holds the
disconnected id, leaving every earlier and later room — including later
rooms that also contain the id — unchanged; and when no room contains the
id the table is unchanged. -/
theorem C10_room_cleanup :
    (∀ (st : ServerState) (sid : String),
      (onDisconnect st sid).1.rooms = cleanupRooms st.rooms sid) ∧
    (∀ (pre post : List (String × Room)) (rid : String) (r : Room)
       (sid : String),
      (∀ p ∈ pre, ¬(p.2.sender = some sid ∨ p.2.receiver = some sid)) →
      (r.sender = some sid ∨ r.receiver = some sid) →
      cleanupRooms (pre ++ (rid, r) :: post) sid = pre ++ post) ∧
    (∀ (rooms : List (String × Room)) (sid : String),
      (∀ p ∈ rooms, ¬(p.2.sender = some sid ∨ p.2.receiver = some sid)) →
      cleanupRooms rooms sid = rooms) := by
  refine ⟨?_, ?_, ?_⟩
  · intro st sid
    cases h : alookup st.activeTransfers sid <;> simp [onDisconnect, h]
  · intro pre post rid r sid
    induction pre with
    | nil =>
        intro _ hr
        simp only [List.nil_append, cleanupRooms, if_pos hr]
    | cons p rest ih =>
        intro hpre hr
        obtain ⟨q, w⟩ := p
        have hq := hpre (q, w) (List.mem_cons_self _ _)
        simp only [List.cons_append, cleanupRooms, if_neg hq]
        rw [show cleanupRooms (rest.append ((rid, r) :: post)) sid =
          rest ++ post from
          ih (fun x hx => hpre x (List.mem_cons_of_mem _ hx)) hr]
  · intro rooms sid
    induction rooms with
    | nil => intro _; rfl
    | cons p rest ih =>
        intro hall
        obtain ⟨q, w⟩ := p
        have hq := hall (q, w) (List.mem_cons_self _ _)
        simp only [cleanupRooms, if_neg hq]
        rw [ih (fun x hx => hall x (List.mem_cons_of_mem _ hx))]

theorem C10_room_cleanup_witness :
    cleanupRooms
      ([("R1", { sender := some "a", receiver := none, fileId := none })] ++
        ("R2", { sender := some "x", receiver := some "b",
                 fileId := none }) ::
        [("R3", { sender := some "x", receiver := none, fileId := none })])
      "x" =
      [("R1", { sender := some "a", receiver := none, fileId := none })] ++
        [("R3", { sender := some "x", receiver := none,
                  fileId := none })] :=
  C10_room_cleanup.2.1
    [("R1", { sender := some "a", receiver := none, fileId := none })]
    [("R3", { sender := some "x", receiver := none, fileId := none })]
    "R2" { sender := some "x", receiver := some "b", fileId := none } "x"
    (by decide) (by decide)
